import Mathlib

/-!
Verification of the encore static-analysis engine spec against its code.

The repository sources available are the parser test file
(`src/parser/testdata/resource_sqldb.txt`, holding `TestCollectPackages`,
`TestParseDurationLiteral` and `TestMain`) and the runtime error utility
(`src/runtime/beta/errs/errs_internal.go`).  The bodies of `collectPackages`
and `parseCronLiteral` themselves are not among the sources, so those two
are modelled from the spec (sections 4.1 and 4.5) and checked against the
behaviour their tests pin down; `RoundTrip` and `HTTPStatusToCode` are
embedded directly from `errs_internal.go`.
-/

namespace Encore

/-! ## Expression evaluator (spec section 4.5, exercised by TestParseDurationLiteral) -/

/-- Binary operators of the schedule-expression sublanguage:
`expr := term (('+'|'-') term)*`, `term := factor (('*'|'/') factor)*`. -/
inductive Op where
  | add
  | sub
  | mul
  | div
deriving DecidableEq, Repr

/-- Modelled from the spec: the syntax-tree shape of a schedule expression
(`factor := INTEGER | DECIMAL | NAMED_CONSTANT | '(' expr ')'`), mirroring the
`go/ast` nodes `parseCronLiteral` walks (BasicLit INT, BasicLit FLOAT,
SelectorExpr resolved through the name bindings, ParenExpr, BinaryExpr).
The Go function itself is not among the sources; only its test is. -/
inductive CronExpr where
  | int (n : Int)
  | dec (lit : String)
  | const (name : String)
  | paren (e : CronExpr)
  | bin (op : Op) (l : CronExpr) (r : CronExpr)
deriving DecidableEq, Repr

/-- Evaluator errors (spec section 7 taxonomy, evaluator subset). -/
inductive EvalErr where
  | floatNotSupported
  | divideByZero
  | unknownConstant (name : String)
deriving DecidableEq, Repr

/-- The accumulated error list of the surrounding parser (`p.errors`,
an `errlist.List` in the Go code): diagnostics are appended, never removed. -/
structure ErrList where
  errors : List EvalErr
deriving DecidableEq, Repr

/-- Modelled from the spec: the recursive evaluation inside `parseCronLiteral`
(whose body is not among the sources).  Integer literals and resolved named
constants evaluate to their values; a decimal literal raises
FloatNotSupported; an unresolved constant raises UnknownConstant; division
checks its divisor first and raises DivideByZero when it is zero, which is
the precedence the exercised test case `2.3 / (1 - 1)` observes; division
truncates toward zero.  Errors are appended to the parser error list and
evaluation bails out, returning ok=false. -/
def evalCron (env : String → Option Int) : ErrList → CronExpr → ErrList × Int × Bool
  | st, .int n => (st, n, true)
  | st, .dec _ => (⟨st.errors ++ [.floatNotSupported]⟩, 0, false)
  | st, .const c =>
    match env c with
    | some v => (st, v, true)
    | none => (⟨st.errors ++ [.unknownConstant c]⟩, 0, false)
  | st, .paren e => evalCron env st e
  | st, .bin .div l r =>
    match evalCron env st r with
    | (st1, _, false) => (st1, 0, false)
    | (st1, rv, true) =>
      if rv = 0 then (⟨st1.errors ++ [.divideByZero]⟩, 0, false)
      else
        match evalCron env st1 l with
        | (st2, _, false) => (st2, 0, false)
        | (st2, lv, true) => (st2, Int.tdiv lv rv, true)
  | st, .bin .add l r =>
    match evalCron env st l with
    | (st1, _, false) => (st1, 0, false)
    | (st1, lv, true) =>
      match evalCron env st1 r with
      | (st2, _, false) => (st2, 0, false)
      | (st2, rv, true) => (st2, lv + rv, true)
  | st, .bin .sub l r =>
    match evalCron env st l with
    | (st1, _, false) => (st1, 0, false)
    | (st1, lv, true) =>
      match evalCron env st1 r with
      | (st2, _, false) => (st2, 0, false)
      | (st2, rv, true) => (st2, lv - rv, true)
  | st, .bin .mul l r =>
    match evalCron env st l with
    | (st1, _, false) => (st1, 0, false)
    | (st1, lv, true) =>
      match evalCron env st1 r with
      | (st2, _, false) => (st2, 0, false)
      | (st2, rv, true) => (st2, lv * rv, true)

/-- Modelled from the spec: `parseCronLiteral` starts from the parser's
error list and returns `(value : int64, ok : bool)`; diagnostics land in
`p.errors`. -/
def parseCronLiteral (env : String → Option Int) (e : CronExpr) : Int × Bool :=
  (evalCron env ⟨[]⟩ e).2

/-- The diagnostics recorded by a `parseCronLiteral` run started with an
empty error list (what `p.errors.Err()` reports in the test). -/
def cronErrors (env : String → Option Int) (e : CronExpr) : List EvalErr :=
  (evalCron env ⟨[]⟩ e).1.errors

/-- Modelled from the spec: "standard left-associative precedence arithmetic"
reference semantics over pure integers — the exact integer value of an
expression whose literals are integers, whose constants resolve, and whose
divisors are nonzero; `none` wherever those side conditions fail.  This is
the spec-side definition the evaluator is compared against. -/
def denote (env : String → Option Int) : CronExpr → Option Int
  | .int n => some n
  | .dec _ => none
  | .const c => env c
  | .paren e => denote env e
  | .bin op l r =>
    match denote env l, denote env r with
    | some a, some b =>
      match op with
      | .add => some (a + b)
      | .sub => some (a - b)
      | .mul => some (a * b)
      | .div => if b = 0 then none else some (Int.tdiv a b)
    | _, _ => none

/-- Whether a decimal literal occurs anywhere in the expression. -/
def containsDec : CronExpr → Bool
  | .int _ => false
  | .dec _ => true
  | .const _ => false
  | .paren e => containsDec e
  | .bin _ l r => containsDec l || containsDec r

/-- The constant registry resolved through the name bindings in
`TestParseDurationLiteral`: `cron.Minute` = 60 seconds, `cron.Hour` = 3600
seconds (the spec's minute/hour named constants). -/
def cronEnv : String → Option Int := fun c =>
  if c = "cron.Minute" then some 60
  else if c = "cron.Hour" then some 3600
  else none

/-- `1*cron.Minute` as parsed by the grammar. -/
def exMinute : CronExpr := .bin .mul (.int 1) (.const "cron.Minute")

/-- `(4/2)*cron.Minute` as parsed by the grammar. -/
def exDivMul : CronExpr :=
  .bin .mul (.paren (.bin .div (.int 4) (.int 2))) (.const "cron.Minute")

/-- `(4-2)*cron.Minute + cron.Hour` as parsed by the grammar
(left-associative, `*` binds tighter than `+`). -/
def exSubMulAdd : CronExpr :=
  .bin .add (.bin .mul (.paren (.bin .sub (.int 4) (.int 2))) (.const "cron.Minute"))
    (.const "cron.Hour")

/-- `2.3 * 2` as parsed by the grammar. -/
def exFloatMul : CronExpr := .bin .mul (.dec "2.3") (.int 2)

/-- `2.3 / (1 - 1)` as parsed by the grammar. -/
def exFloatDivZero : CronExpr :=
  .bin .div (.dec "2.3") (.paren (.bin .sub (.int 1) (.int 1)))

/-! ## Package collector (spec section 4.1, exercised by TestCollectPackages) -/

/-- What the front-end parser reports for one qualifying source file: the
declared package name, or a syntax-error message carrying the parser's
position hint (as `go/parser` reports it, e.g. `2:11: expected ...`). -/
inductive ParseResult where
  | parsed (pkgName : String)
  | failed (hint : String)
deriving DecidableEq, Repr

/-- Whether a file walked by the collector qualifies as a source file; a
non-source file (the test's `a.txt`) has no parse outcome. -/
inductive FileKind where
  | source (result : ParseResult)
  | nonSource
deriving DecidableEq, Repr

/-- A file handed to the collector by the tree walk: containing directory
(slash-separated, relative to the tree root), base name, and parse
outcome. -/
structure SrcFile where
  dir : String
  name : String
  kind : FileKind
deriving DecidableEq, Repr

/-- The `est.Package` fields `TestCollectPackages` checks (`Dir` is kept
relative to the tree root, where the Go test joins it to the temp dir). -/
structure Package where
  Name : String
  ImportPath : String
  RelPath : String
  Dir : String
deriving DecidableEq, Repr

/-- Collector diagnostics (spec section 7): SyntaxError for an unparseable
file, PackageConflict carrying the directory and the two distinct package
names found there. -/
inductive Diagnostic where
  | syntaxError (file : String) (hint : String)
  | packageConflict (dir : String) (name1 name2 : String)
deriving DecidableEq, Repr

/-- The report text of a diagnostic: a syntax error carries the file path
followed by the parser's position hint; a conflict is reported as in
TestCollectPackages: `got multiple package names in directory: a and b`. -/
def Diagnostic.message : Diagnostic → String
  | .syntaxError file hint => file ++ ":" ++ hint
  | .packageConflict _ n1 n2 =>
    "got multiple package names in directory: " ++ n1 ++ " and " ++ n2

/-- The package names successfully parsed from a directory's files (the
directory's binding set): unparseable files and non-source files
contribute nothing. -/
def parsedNames (fs : List SrcFile) : List String :=
  fs.filterMap fun f =>
    match f.kind with
    | .source (.parsed n) => some n
    | _ => none

/-- One SyntaxError diagnostic per source file that fails to parse,
carrying the file's path and the parser's position hint. -/
def syntaxDiags (fs : List SrcFile) : List Diagnostic :=
  fs.filterMap fun f =>
    match f.kind with
    | .source (.failed hint) => some (.syntaxError (f.dir ++ "/" ++ f.name) hint)
    | _ => none

/-- Modelled from the spec: the Package a directory yields from its parsed
package names — one Package with ImportPath = modulePath + "/" +
relativePath when all names agree, none when the directory has no
qualifying files or the names disagree (`collectPackages` itself is not
under src; only TestCollectPackages is). -/
def dirPackage (modulePath dir : String) (names : List String) : Option Package :=
  match names with
  | [] => none
  | n :: rest =>
    match rest.find? (fun m => m != n) with
    | some _ => none
    | none =>
      some { Name := n, ImportPath := modulePath ++ "/" ++ dir,
             RelPath := dir, Dir := dir }

/-- Modelled from the spec: the PackageConflict a directory raises when its
files declare two distinct package names — the first name and the first
name differing from it. -/
def dirConflict (dir : String) (names : List String) : List Diagnostic :=
  match names with
  | [] => []
  | n :: rest =>
    match rest.find? (fun m => m != n) with
    | some m => [.packageConflict dir n m]
    | none => []

/-- Modelled from the spec: the per-directory step of `collectPackages`:
record a SyntaxError per unparseable file, then either emit the directory's
Package or its PackageConflict. -/
def collectDir (modulePath dir : String) (fs : List SrcFile) :
    Option Package × List Diagnostic :=
  (dirPackage modulePath dir (parsedNames fs),
   syntaxDiags fs ++ dirConflict dir (parsedNames fs))

/-- Modelled from the spec: `collectPackages` (body not under src) walks
the source tree — `files` lists the walked files in walk order — groups
files by containing directory and runs the per-directory step on each;
a conflict or syntax error in one directory never aborts the run. -/
def collectPackages (modulePath : String) (files : List SrcFile) :
    List Package × List Diagnostic :=
  let dirs := (files.map SrcFile.dir).eraseDups
  let results := dirs.map fun d =>
    collectDir modulePath d (files.filter (fun f => f.dir == d))
  (results.filterMap Prod.fst, (results.map Prod.snd).flatten)

/-- First TestCollectPackages archive: `a/a.go` declaring `package foo`,
`a/b/b.go` declaring `package bar`. -/
def exTwoPkgs : List SrcFile :=
  [⟨"a", "a.go", .source (.parsed "foo")⟩,
   ⟨"a/b", "b.go", .source (.parsed "bar")⟩]

/-- Second archive: `a/a.go` with the malformed clause `package fo/;`; the
Go parser reports `expected \x27;\x27, found \x27/\x27` at 2:11. -/
def exSyntaxErr : List SrcFile :=
  [⟨"a", "a.go", .source (.failed "2:11: expected \x27;\x27, found \x27/\x27")⟩]

/-- Third archive: two files in `a/` declaring packages `a` and `b`. -/
def exConflict : List SrcFile :=
  [⟨"a", "a.go", .source (.parsed "a")⟩,
   ⟨"a", "b.go", .source (.parsed "b")⟩]

/-- The conflicting directory together with a healthy sibling directory,
showing the conflict is locally fatal only. -/
def exConflictPlus : List SrcFile :=
  exConflict ++ [⟨"c", "c.go", .source (.parsed "baz")⟩]

/-- Fourth archive: a directory holding only the non-source file `a/a.txt`. -/
def exNonSource : List SrcFile := [⟨"a", "a.txt", .nonSource⟩]

/-! ## Runtime error utility (src/runtime/beta/errs/errs_internal.go) -/

namespace Errs

/-- The error codes named by `errs_internal.go` (`statusToCode` and
`RoundTrip`). -/
inductive ErrCode where
  | OK
  | Canceled
  | Unknown
  | InvalidArgument
  | DeadlineExceeded
  | NotFound
  | AlreadyExists
  | PermissionDenied
  | ResourceExhausted
  | Unimplemented
  | Internal
  | Unavailable
  | Unauthenticated
deriving DecidableEq, Repr

/-- Stand-in for the payload of `ErrDetails` (a gob-encodable value). -/
abbrev ErrDetails := String

/-- Stand-in for `Metadata` (`map[string]interface\x7b\x7d`). -/
abbrev Metadata := List (String × String)

/-- Stand-in for `stack.Stack`; `RoundTrip` always installs a freshly
built stack (`stack.Build(3)`), passed in here by the caller. -/
abbrev Stack := List String

/-- The `errs.Error` fields `RoundTrip` touches. -/
structure Error where
  Code : ErrCode
  Message : String
  Details : Option ErrDetails
  Meta : Option Metadata
  stack : Stack
deriving DecidableEq, Repr

/-- A Go `error` interface value: nil, a `*errs.Error`, or any other
non-nil error exposing only its `Error()` string. -/
inductive GoError where
  | nil
  | errsError (e : Error)
  | other (message : String)
deriving DecidableEq, Repr

/-- `RoundTrip` from `errs_internal.go`: copies an error for replication
across RPC boundaries.  The gob encode/decode round trips for Details and
Meta are passed in as `gobDetails`/`gobMeta` (returning `none` when
encoding or decoding fails, in which case the copied field stays unset,
as the Go code only logs the failure); `newStack` is the `stack.Build(3)`
result. -/
def RoundTrip (gobDetails : ErrDetails → Option ErrDetails)
    (gobMeta : Metadata → Option Metadata) (newStack : Stack) :
    GoError → GoError
  | .nil => .nil
  | .errsError e =>
    .errsError { Code := e.Code, Message := e.Message,
                 Details := e.Details.bind gobDetails,
                 Meta := e.Meta.bind gobMeta,
                 stack := newStack }
  | .other msg =>
    .errsError { Code := .Unknown, Message := msg,
                 Details := none, Meta := none, stack := newStack }

/-- The `statusToCode` map literal from `errs_internal.go`. -/
def statusToCode : List (Int × ErrCode) :=
  [(200, .OK), (499, .Canceled), (500, .Internal), (400, .InvalidArgument),
   (401, .Unauthenticated), (403, .PermissionDenied), (404, .NotFound),
   (409, .AlreadyExists), (429, .ResourceExhausted), (501, .Unimplemented),
   (503, .Unavailable), (504, .DeadlineExceeded)]

/-- `HTTPStatusToCode` from `errs_internal.go`: the mapped code when the
status is in the map, `Unknown` otherwise. -/
def HTTPStatusToCode (status : Int) : ErrCode :=
  match statusToCode.lookup status with
  | some c => c
  | none => .Unknown

end Errs

/-- Error-list discipline of the evaluator: the run only appends to the
parser's error list, and it returns ok=true exactly when it appended
nothing. -/
theorem evalCron_errors_spec (env : String → Option Int) (e : CronExpr) :
    ∀ (st st' : ErrList) (v : Int) (ok : Bool), evalCron env st e = (st', v, ok) →
      ∃ new : List EvalErr, st'.errors = st.errors ++ new ∧ (ok = true ↔ new = []) := by
  induction e with
  | int n =>
    intro st st' v ok h
    simp only [evalCron, Prod.mk.injEq] at h
    exact ⟨[], by simp [← h.1, h.2]⟩
  | dec lit =>
    intro st st' v ok h
    simp only [evalCron, Prod.mk.injEq] at h
    exact ⟨[.floatNotSupported], by simp [← h.1, h.2]⟩
  | const c =>
    intro st st' v ok h
    cases hc : env c with
    | some w =>
      simp only [evalCron, hc, Prod.mk.injEq] at h
      exact ⟨[], by simp [← h.1, h.2]⟩
    | none =>
      simp only [evalCron, hc, Prod.mk.injEq] at h
      exact ⟨[.unknownConstant c], by simp [← h.1, h.2]⟩
  | paren e ih =>
    intro st st' v ok h
    exact ih st st' v ok (by simpa [evalCron] using h)
  | bin op l r ihl ihr =>
    intro st st' v ok h
    cases op
    case div =>
      rcases hrv : evalCron env st r with ⟨st1, rv, ok1⟩
      obtain ⟨nr, hr, hrok⟩ := ihr st st1 rv ok1 hrv
      simp only [evalCron, hrv] at h
      cases ok1 with
      | false =>
        simp only [Prod.mk.injEq] at h
        refine ⟨nr, ?_, ?_⟩
        · rw [← h.1]; exact hr
        · rw [← h.2.2]; exact hrok
      | true =>
        have hnr : nr = [] := hrok.mp rfl
        subst hnr
        simp only [List.append_nil] at hr
        by_cases hz : rv = 0
        · simp only [if_pos hz, Prod.mk.injEq] at h
          refine ⟨[.divideByZero], ?_, ?_⟩
          · rw [← h.1]; simp [hr]
          · simp [← h.2.2]
        · simp only [if_neg hz] at h
          rcases hlv : evalCron env st1 l with ⟨st2, lv, ok2⟩
          obtain ⟨nl, hl, hlok⟩ := ihl st1 st2 lv ok2 hlv
          simp only [hlv] at h
          cases ok2 with
          | false =>
            simp only [Prod.mk.injEq] at h
            refine ⟨nl, ?_, ?_⟩
            · rw [← h.1, hl, hr]
            · rw [← h.2.2]; exact hlok
          | true =>
            have hnl : nl = [] := hlok.mp rfl
            subst hnl
            simp only [List.append_nil] at hl
            simp only [Prod.mk.injEq] at h
            exact ⟨[], by rw [← h.1, hl, hr]; simp, by simp [← h.2.2]⟩
    all_goals {
      rcases hlv : evalCron env st l with ⟨st1, lv, ok1⟩
      obtain ⟨nl, hl, hlok⟩ := ihl st st1 lv ok1 hlv
      simp only [evalCron, hlv] at h
      cases ok1 with
      | false =>
        simp only [Prod.mk.injEq] at h
        refine ⟨nl, ?_, ?_⟩
        · rw [← h.1]; exact hl
        · rw [← h.2.2]; exact hlok
      | true =>
        have hnl : nl = [] := hlok.mp rfl
        subst hnl
        simp only [List.append_nil] at hl
        rcases hrv : evalCron env st1 r with ⟨st2, rv, ok2⟩
        obtain ⟨nr, hr, hrok⟩ := ihr st1 st2 rv ok2 hrv
        simp only [hrv] at h
        cases ok2 with
        | false =>
          simp only [Prod.mk.injEq] at h
          refine ⟨nr, ?_, ?_⟩
          · rw [← h.1, hr, hl]
          · rw [← h.2.2]; exact hrok
        | true =>
          have hnr : nr = [] := hrok.mp rfl
          subst hnr
          simp only [List.append_nil] at hr
          simp only [Prod.mk.injEq] at h
          exact ⟨[], by rw [← h.1, hr, hl]; simp, by simp [← h.2.2]⟩
    }

/-- On expressions the reference semantics gives a value to, the evaluator
returns exactly that value, records nothing, and reports ok=true. -/
theorem evalCron_denote (env : String → Option Int) :
    ∀ (e : CronExpr) (v : Int), denote env e = some v →
      ∀ st : ErrList, evalCron env st e = (st, v, true) := by
  intro e
  induction e with
  | int n =>
    intro v hv st
    simp only [denote, Option.some.injEq] at hv
    simp [evalCron, hv]
  | dec lit => intro v hv st; simp [denote] at hv
  | const c =>
    intro v hv st
    simp only [denote] at hv
    simp [evalCron, hv]
  | paren e ih =>
    intro v hv st
    simp only [denote] at hv
    simpa [evalCron] using ih v hv st
  | bin op l r ihl ihr =>
    intro v hv st
    rcases hdl : denote env l with _ | a
    · simp [denote, hdl] at hv
    rcases hdr : denote env r with _ | b
    · simp [denote, hdl, hdr] at hv
    have hl := ihl a hdl
    have hr := ihr b hdr
    cases op with
    | add =>
      simp only [denote, hdl, hdr, Option.some.injEq] at hv
      simp [evalCron, hl st, hr st, hv]
    | sub =>
      simp only [denote, hdl, hdr, Option.some.injEq] at hv
      simp [evalCron, hl st, hr st, hv]
    | mul =>
      simp only [denote, hdl, hdr, Option.some.injEq] at hv
      simp [evalCron, hl st, hr st, hv]
    | div =>
      simp only [denote, hdl, hdr] at hv
      by_cases hz : b = 0
      · simp [hz] at hv
      · simp only [if_neg hz, Option.some.injEq] at hv
        simp [evalCron, hr st, hl st, hz, hv]

/-- An expression containing a decimal literal anywhere never evaluates
with ok=true: either the decimal literal itself is reached and raises
FloatNotSupported, or an earlier error has already ended the run. -/
theorem evalCron_dec_not_ok (env : String → Option Int) :
    ∀ e : CronExpr, containsDec e = true →
      ∀ st : ErrList, (evalCron env st e).2.2 = false := by
  intro e
  induction e with
  | int n => intro h; simp [containsDec] at h
  | dec lit => intro _ st; simp [evalCron]
  | const c => intro h; simp [containsDec] at h
  | paren e ih =>
    intro h st
    simpa [evalCron] using ih (by simpa [containsDec] using h) st
  | bin op l r ihl ihr =>
    intro h st
    have hlr : containsDec l = true ∨ containsDec r = true := by
      simpa [containsDec, Bool.or_eq_true] using h
    cases op
    case div =>
      rcases hrv : evalCron env st r with ⟨st1, rv, ok1⟩
      cases ok1 with
      | false => simp [evalCron, hrv]
      | true =>
        have hl : containsDec l = true := by
          rcases hlr with hl | hr2
          · exact hl
          · have := ihr hr2 st
            rw [hrv] at this
            simp at this
        by_cases hz : rv = 0
        · simp [evalCron, hrv, hz]
        · rcases hlv : evalCron env st1 l with ⟨st2, lv, ok2⟩
          cases ok2 with
          | false => simp [evalCron, hrv, if_neg hz, hlv]
          | true =>
            have := ihl hl st1
            rw [hlv] at this
            simp at this
    all_goals {
      rcases hlv : evalCron env st l with ⟨st1, lv, ok1⟩
      cases ok1 with
      | false => simp [evalCron, hlv]
      | true =>
        have hr : containsDec r = true := by
          rcases hlr with hl2 | hr
          · have := ihl hl2 st
            rw [hlv] at this
            simp at this
          · exact hr
        rcases hrv : evalCron env st1 r with ⟨st2, rv, ok2⟩
        cases ok2 with
        | false => simp [evalCron, hlv, hrv]
        | true =>
          have := ihr hr st1
          rw [hrv] at this
          simp at this
    }

/-- C1: for schedule expressions over integer literals and resolved named
constants (minute=60, hour=3600), the evaluator returns exactly the integer
value of standard left-associative precedence arithmetic (the `denote`
reference semantics) with ok=true; in particular `1*cron.Minute` yields 60,
`(4/2)*cron.Minute` yields 120, and `(4-2)*cron.Minute + cron.Hour` yields
3720, each with ok=true. -/
theorem claim_C1_evaluator_exact_arithmetic :
    (∀ (env : String → Option Int) (e : CronExpr) (v : Int),
        denote env e = some v → parseCronLiteral env e = (v, true)) ∧
    parseCronLiteral cronEnv exMinute = (60, true) ∧
    parseCronLiteral cronEnv exDivMul = (120, true) ∧
    parseCronLiteral cronEnv exSubMulAdd = (3720, true) := by
  refine ⟨?_, by decide, by decide, by decide⟩
  intro env e v hv
  unfold parseCronLiteral
  rw [evalCron_denote env e v hv ⟨[]⟩]

/-- Witness for C1 at the concrete input `(4-2)*cron.Minute + cron.Hour`. -/
theorem claim_C1_evaluator_exact_arithmetic_witness :
    denote cronEnv exSubMulAdd = some 3720 ∧
    parseCronLiteral cronEnv exSubMulAdd = (3720, true) :=
  ⟨by decide, claim_C1_evaluator_exact_arithmetic.1 cronEnv exSubMulAdd 3720 (by decide)⟩

/-- C2 counterexample: `2.3 / (1 - 1)` contains a decimal literal, yet the
diagnostic the evaluator records is DivideByZero, not FloatNotSupported —
exactly what test case 4 of TestParseDurationLiteral demands
(`.+ cannot divide by zero.*`). -/
theorem claim_C2_counterexample :
    containsDec exFloatDivZero = true ∧
    cronErrors cronEnv exFloatDivZero = [EvalErr.divideByZero] ∧
    EvalErr.floatNotSupported ∉ cronErrors cronEnv exFloatDivZero := by decide

/-- C2 (amended): an expression containing a decimal literal anywhere never
evaluates with ok=true, but the recorded error is FloatNotSupported only
when no other error ends the run first: `2.3 * 2` records FloatNotSupported,
while `2.3 / (1 - 1)` records DivideByZero because the zero divisor is
detected before the decimal numerator is evaluated. -/
theorem claim_C2_amended_decimal_never_ok :
    (∀ (env : String → Option Int) (e : CronExpr), containsDec e = true →
        (parseCronLiteral env e).2 = false) ∧
    cronErrors cronEnv exFloatMul = [EvalErr.floatNotSupported] ∧
    parseCronLiteral cronEnv exFloatMul = (0, false) ∧
    cronErrors cronEnv exFloatDivZero = [EvalErr.divideByZero] ∧
    parseCronLiteral cronEnv exFloatDivZero = (0, false) := by
  refine ⟨?_, by decide, by decide, by decide, by decide⟩
  intro env e h
  exact evalCron_dec_not_ok env e h ⟨[]⟩

/-- Witness for the amended C2 at the concrete input `2.3 * 2`. -/
theorem claim_C2_amended_decimal_never_ok_witness :
    containsDec exFloatMul = true ∧ (parseCronLiteral cronEnv exFloatMul).2 = false :=
  ⟨by decide, claim_C2_amended_decimal_never_ok.1 cronEnv exFloatMul (by decide)⟩

/-- C3: a division whose divisor evaluates to zero (a literal zero or a
parenthesized sub-expression evaluating to zero) records DivideByZero and
returns ok=false; in particular `2.3 / (1 - 1)` records DivideByZero. -/
theorem claim_C3_divide_by_zero :
    (∀ (env : String → Option Int) (st : ErrList) (l r : CronExpr) (st1 : ErrList),
        evalCron env st r = (st1, 0, true) →
        evalCron env st (.bin .div l r) =
          (⟨st1.errors ++ [EvalErr.divideByZero]⟩, 0, false)) ∧
    parseCronLiteral cronEnv exFloatDivZero = (0, false) ∧
    cronErrors cronEnv exFloatDivZero = [EvalErr.divideByZero] := by
  refine ⟨?_, by decide, by decide⟩
  intro env st l r st1 h
  simp [evalCron, h]

/-- Witness for C3 at the concrete divisor `(1 - 1)` inside `2.3 / (1 - 1)`. -/
theorem claim_C3_divide_by_zero_witness :
    evalCron cronEnv ⟨[]⟩ (.paren (.bin .sub (.int 1) (.int 1))) = (⟨[]⟩, 0, true) ∧
    evalCron cronEnv ⟨[]⟩ exFloatDivZero = (⟨[EvalErr.divideByZero]⟩, 0, false) :=
  ⟨by decide, claim_C3_divide_by_zero.1 cronEnv ⟨[]⟩ (.dec "2.3")
    (.paren (.bin .sub (.int 1) (.int 1))) ⟨[]⟩ (by decide)⟩

/-- C8: the evaluator returns (value, ok) with ok=false exactly when a
diagnostic was recorded in the parser's error list, and ok=true exactly
when the error list stayed empty. -/
theorem claim_C8_ok_iff_no_diagnostic :
    ∀ (env : String → Option Int) (e : CronExpr),
      ((parseCronLiteral env e).2 = false ↔ cronErrors env e ≠ []) ∧
      ((parseCronLiteral env e).2 = true ↔ cronErrors env e = []) := by
  intro env e
  rcases h : evalCron env ⟨[]⟩ e with ⟨st', v, ok⟩
  obtain ⟨new, hn, hok⟩ := evalCron_errors_spec env e ⟨[]⟩ st' v ok h
  simp only [List.nil_append] at hn
  unfold parseCronLiteral cronErrors
  rw [h]
  cases ok with
  | true =>
    have hnil : new = [] := hok.mp rfl
    subst hnil
    simp [hn]
  | false =>
    have hne : new ≠ [] := by
      intro hnil
      exact Bool.false_ne_true (hok.mpr hnil)
    simp [hn, hne]

/-- A Package a directory emits always carries
ImportPath = modulePath + "/" + RelPath, with RelPath the directory. -/
theorem dirPackage_fields (modulePath dir : String) (names : List String)
    (p : Package) (h : dirPackage modulePath dir names = some p) :
    p.ImportPath = modulePath ++ "/" ++ p.RelPath ∧ p.RelPath = dir ∧ p.Dir = dir := by
  rcases names with _ | ⟨n, rest⟩
  · simp [dirPackage] at h
  · simp only [dirPackage] at h
    rcases hf : rest.find? (fun m => m != n) with _ | m
    · rw [hf] at h
      simp only [Option.some.injEq] at h
      subst h
      exact ⟨rfl, rfl, rfl⟩
    · rw [hf] at h
      simp at h

/-- C4: every collected Package satisfies ImportPath = modulePath + "/" +
RelativePath, and the tree with package foo in a/ and package bar in a/b/
collects to exactly two Packages with ImportPath module/a and module/a/b
and RelativePath a and a/b. -/
theorem claim_C4_collect_two_packages :
    (∀ (modulePath : String) (files : List SrcFile) (p : Package),
        p ∈ (collectPackages modulePath files).1 →
        p.ImportPath = modulePath ++ "/" ++ p.RelPath) ∧
    collectPackages "module" exTwoPkgs =
      ([{ Name := "foo", ImportPath := "module/a", RelPath := "a", Dir := "a" },
        { Name := "bar", ImportPath := "module/a/b", RelPath := "a/b", Dir := "a/b" }],
       []) := by
  refine ⟨?_, by decide⟩
  intro modulePath files p hp
  simp only [collectPackages, List.mem_filterMap, List.mem_map] at hp
  obtain ⟨x, ⟨d, hd, hx⟩, hpx⟩ := hp
  subst hx
  exact (dirPackage_fields modulePath d _ p hpx).1

/-- Witness for C4 at the first emitted Package of the two-package tree. -/
theorem claim_C4_collect_two_packages_witness :
    ({ Name := "foo", ImportPath := "module/a", RelPath := "a", Dir := "a" } : Package)
        ∈ (collectPackages "module" exTwoPkgs).1 ∧
    ("module/a" : String) = "module" ++ "/" ++ "a" :=
  ⟨by decide, claim_C4_collect_two_packages.1 "module" exTwoPkgs
    { Name := "foo", ImportPath := "module/a", RelPath := "a", Dir := "a" } (by decide)⟩

/-- C5: a directory whose files declare two distinct package names yields
no Package and a PackageConflict diagnostic naming two distinct declared
names, and the run is not aborted: collectPackages still returns a full
result, and a sibling directory still yields its Package. -/
theorem claim_C5_package_conflict :
    (∀ (modulePath dir : String) (fs : List SrcFile) (n1 n2 : String),
        n1 ∈ parsedNames fs → n2 ∈ parsedNames fs → n1 ≠ n2 →
        (collectDir modulePath dir fs).1 = none ∧
        ∃ a b, a ≠ b ∧ a ∈ parsedNames fs ∧ b ∈ parsedNames fs ∧
          Diagnostic.packageConflict dir a b ∈ (collectDir modulePath dir fs).2) ∧
    collectPackages "test.path" exConflict =
      ([], [.packageConflict "a" "a" "b"]) ∧
    (Diagnostic.packageConflict "a" "a" "b").message =
      "got multiple package names in directory: a and b" ∧
    collectPackages "test.path" exConflictPlus =
      ([{ Name := "baz", ImportPath := "test.path/c", RelPath := "c", Dir := "c" }],
       [.packageConflict "a" "a" "b"]) := by
  refine ⟨?_, by decide, by decide, by decide⟩
  intro modulePath dir fs n1 n2 h1 h2 hne
  rcases hn : parsedNames fs with _ | ⟨n, rest⟩
  · rw [hn] at h1
    simp at h1
  · rw [hn] at h1 h2
    have hx : ∃ x ∈ rest, x ≠ n := by
      by_cases hn1 : n1 = n
      · have hn2 : n2 ≠ n := fun hc => hne (by rw [hn1, hc])
        rcases List.mem_cons.mp h2 with h | h
        · exact absurd h hn2
        · exact ⟨n2, h, hn2⟩
      · rcases List.mem_cons.mp h1 with h | h
        · exact absurd h hn1
        · exact ⟨n1, h, hn1⟩
    obtain ⟨x, hxmem, hxn⟩ := hx
    rcases hf : rest.find? (fun m => m != n) with _ | m
    · have := List.find?_eq_none.mp hf x hxmem
      simp [hxn] at this
    · have hmn : m ≠ n := by
        have := List.find?_some hf
        simpa using this
      have hmr : m ∈ rest := List.mem_of_find?_eq_some hf
      constructor
      · simp [collectDir, dirPackage, hn, hf]
      · refine ⟨n, m, fun hc => hmn hc.symm, ?_, ?_, ?_⟩
        · exact List.mem_cons_self n rest
        · exact List.mem_cons_of_mem n hmr
        · simp [collectDir, dirConflict, hn, hf]

/-- Witness for C5 at the conflicting directory of the third archive. -/
theorem claim_C5_package_conflict_witness :
    (("a" : String) ∈ parsedNames exConflict ∧ ("b" : String) ∈ parsedNames exConflict ∧
      ("a" : String) ≠ "b") ∧
    ((collectDir "test.path" "a" exConflict).1 = none ∧
      ∃ a b, a ≠ b ∧ a ∈ parsedNames exConflict ∧ b ∈ parsedNames exConflict ∧
        Diagnostic.packageConflict "a" a b ∈ (collectDir "test.path" "a" exConflict).2) :=
  ⟨⟨by decide, by decide, by decide⟩,
   claim_C5_package_conflict.1 "test.path" "a" exConflict "a" "b"
     (by decide) (by decide) (by decide)⟩

/-- C6: a source file that fails to parse yields a SyntaxError diagnostic
whose message carries the file's name and the parser's position hint, is
excluded from the directory's binding set, and leaves the processing of the
sibling files — the directory's Package outcome — unchanged. -/
theorem claim_C6_syntax_error :
    (∀ (modulePath dir : String) (fs1 fs2 : List SrcFile) (name hint : String),
        Diagnostic.syntaxError (dir ++ "/" ++ name) hint ∈
          (collectDir modulePath dir
            (fs1 ++ ⟨dir, name, .source (.failed hint)⟩ :: fs2)).2 ∧
        parsedNames (fs1 ++ ⟨dir, name, .source (.failed hint)⟩ :: fs2) =
          parsedNames (fs1 ++ fs2) ∧
        (collectDir modulePath dir
            (fs1 ++ ⟨dir, name, .source (.failed hint)⟩ :: fs2)).1 =
          (collectDir modulePath dir (fs1 ++ fs2)).1) ∧
    (∀ file hint : String, ∃ s t : String,
        (Diagnostic.syntaxError file hint).message = file ++ s ∧
        (Diagnostic.syntaxError file hint).message = t ++ hint) ∧
    collectPackages "test.path" exSyntaxErr =
      ([], [Diagnostic.syntaxError "a/a.go" "2:11: expected \x27;\x27, found \x27/\x27"]) := by
  refine ⟨?_, ?_, by decide⟩
  · intro modulePath dir fs1 fs2 name hint
    have hpn : parsedNames (fs1 ++ ⟨dir, name, .source (.failed hint)⟩ :: fs2) =
        parsedNames (fs1 ++ fs2) := by
      simp [parsedNames, List.filterMap_append, List.filterMap_cons]
    refine ⟨?_, hpn, ?_⟩
    · have hsd : syntaxDiags (fs1 ++ ⟨dir, name, .source (.failed hint)⟩ :: fs2) =
          syntaxDiags fs1 ++
            Diagnostic.syntaxError (dir ++ "/" ++ name) hint :: syntaxDiags fs2 := by
        simp [syntaxDiags, List.filterMap_append, List.filterMap_cons]
      simp [collectDir, hsd]
    · simp [collectDir, hpn]
  · intro file hint
    refine ⟨":" ++ hint, file ++ ":", ?_, ?_⟩
    · simp [Diagnostic.message, String.append_assoc]
    · simp [Diagnostic.message, String.append_assoc]

/-- C7: a directory with no qualifying source files yields no Package and
no diagnostic; concretely the tree holding only the non-source file
`a/a.txt` collects to zero Packages and zero diagnostics. -/
theorem claim_C7_no_source_files :
    (∀ (modulePath dir : String) (fs : List SrcFile),
        (∀ f ∈ fs, f.kind = FileKind.nonSource) →
        collectDir modulePath dir fs = (none, [])) ∧
    collectPackages "test.path" exNonSource = ([], []) := by
  refine ⟨?_, by decide⟩
  intro modulePath dir fs h
  have h1 : parsedNames fs = [] := by
    rw [parsedNames, List.filterMap_eq_nil_iff]
    intro f hf
    rw [h f hf]
  have h2 : syntaxDiags fs = [] := by
    rw [syntaxDiags, List.filterMap_eq_nil_iff]
    intro f hf
    rw [h f hf]
  simp [collectDir, h1, h2, dirPackage, dirConflict]

/-- Witness for C7 at the fourth archive (only `a/a.txt`). -/
theorem claim_C7_no_source_files_witness :
    (∀ f ∈ exNonSource, f.kind = FileKind.nonSource) ∧
    collectDir "test.path" "a" exNonSource = (none, []) :=
  ⟨by decide, claim_C7_no_source_files.1 "test.path" "a" exNonSource (by decide)⟩

/-- C9: RoundTrip maps nil to nil; a *Error is copied into a freshly built
*Error whose Code and Message equal the input's, Details and Meta going
through the gob encode/decode round trip — hence copied unchanged whenever
that round trip succeeds identically; and any other non-nil error becomes
an *Error with Code Unknown and Message the original's Error() string. -/
theorem claim_C9_roundtrip_preserves_core :
    ∀ (gd : Errs.ErrDetails → Option Errs.ErrDetails)
      (gm : Errs.Metadata → Option Errs.Metadata) (ns : Errs.Stack),
      Errs.RoundTrip gd gm ns .nil = .nil ∧
      (∀ e : Errs.Error, ∃ e2 : Errs.Error,
          Errs.RoundTrip gd gm ns (.errsError e) = .errsError e2 ∧
          e2.Code = e.Code ∧ e2.Message = e.Message ∧
          e2.Details = e.Details.bind gd ∧ e2.Meta = e.Meta.bind gm ∧
          e2.stack = ns) ∧
      ((∀ x, gd x = some x) → (∀ x, gm x = some x) →
        ∀ e : Errs.Error, ∃ e2 : Errs.Error,
          Errs.RoundTrip gd gm ns (.errsError e) = .errsError e2 ∧
          e2.Code = e.Code ∧ e2.Message = e.Message ∧
          e2.Details = e.Details ∧ e2.Meta = e.Meta) ∧
      (∀ msg : String, Errs.RoundTrip gd gm ns (.other msg) =
          .errsError ⟨.Unknown, msg, none, none, ns⟩) := by
  intro gd gm ns
  refine ⟨rfl, fun e => ⟨_, rfl, rfl, rfl, rfl, rfl, rfl⟩, ?_, fun msg => rfl⟩
  intro hgd hgm e
  refine ⟨_, rfl, rfl, rfl, ?_, ?_⟩
  · cases hd : e.Details with
    | none => simp
    | some d => simp [hgd d]
  · cases hm : e.Meta with
    | none => simp
    | some m => simp [hgm m]

/-- Witness for C9 with identity gob round trips at a concrete *Error. -/
theorem claim_C9_roundtrip_preserves_core_witness :
    ∃ e2 : Errs.Error,
      Errs.RoundTrip some some ["f"]
          (.errsError ⟨.NotFound, "msg", some "detail", some [("k", "v")], ["g"]⟩) =
        .errsError e2 ∧
      e2.Code = Errs.ErrCode.NotFound ∧ e2.Message = "msg" ∧
      e2.Details = some "detail" ∧ e2.Meta = some [("k", "v")] :=
  (claim_C9_roundtrip_preserves_core some some ["f"]).2.2.1
    (fun _ => rfl) (fun _ => rfl)
    ⟨.NotFound, "msg", some "detail", some [("k", "v")], ["g"]⟩

/-- C10: HTTPStatusToCode is total — each of the twelve mapped statuses
returns its code and every other integer returns Unknown. -/
theorem claim_C10_http_status_total :
    (∀ s : Int,
        s ∉ ([200, 499, 500, 400, 401, 403, 404, 409, 429, 501, 503, 504] : List Int) →
        Errs.HTTPStatusToCode s = .Unknown) ∧
    Errs.HTTPStatusToCode 200 = .OK ∧
    Errs.HTTPStatusToCode 499 = .Canceled ∧
    Errs.HTTPStatusToCode 500 = .Internal ∧
    Errs.HTTPStatusToCode 400 = .InvalidArgument ∧
    Errs.HTTPStatusToCode 401 = .Unauthenticated ∧
    Errs.HTTPStatusToCode 403 = .PermissionDenied ∧
    Errs.HTTPStatusToCode 404 = .NotFound ∧
    Errs.HTTPStatusToCode 409 = .AlreadyExists ∧
    Errs.HTTPStatusToCode 429 = .ResourceExhausted ∧
    Errs.HTTPStatusToCode 501 = .Unimplemented ∧
    Errs.HTTPStatusToCode 503 = .Unavailable ∧
    Errs.HTTPStatusToCode 504 = .DeadlineExceeded := by
  refine ⟨?_, by decide, by decide, by decide, by decide, by decide, by decide,
    by decide, by decide, by decide, by decide, by decide, by decide⟩
  intro s hs
  simp only [List.mem_cons, List.not_mem_nil, or_false, not_or] at hs
  obtain ⟨h1, h2, h3, h4, h5, h6, h7, h8, h9, h10, h11, h12⟩ := hs
  simp [Errs.HTTPStatusToCode, Errs.statusToCode, List.lookup,
    beq_eq_false_iff_ne.mpr h1, beq_eq_false_iff_ne.mpr h2,
    beq_eq_false_iff_ne.mpr h3, beq_eq_false_iff_ne.mpr h4,
    beq_eq_false_iff_ne.mpr h5, beq_eq_false_iff_ne.mpr h6,
    beq_eq_false_iff_ne.mpr h7, beq_eq_false_iff_ne.mpr h8,
    beq_eq_false_iff_ne.mpr h9, beq_eq_false_iff_ne.mpr h10,
    beq_eq_false_iff_ne.mpr h11, beq_eq_false_iff_ne.mpr h12]

/-- Witness for C10 at the unmapped status 123. -/
theorem claim_C10_http_status_total_witness :
    (123 : Int) ∉ ([200, 499, 500, 400, 401, 403, 404, 409, 429, 501, 503, 504] : List Int) ∧
    Errs.HTTPStatusToCode 123 = .Unknown :=
  ⟨by decide, claim_C10_http_status_total.1 123 (by decide)⟩

end Encore
